import Mathlib

/-!
Verification of the streaming statistics estimator (`estimator.py`).

The accumulators are embedded shallowly: observations are exact rationals
(the spec's "exact arithmetic" reading of float64), each Python class becomes
a structure with its mutating methods turned into state-passing functions,
and the driver loop becomes a left fold over the input sequence.  `SortedList`
is embedded as a sorted `List ℚ` with `add` as ordered insertion; Python
indexing (which supports negative indices and raises `IndexError` out of
range) is embedded as the `Option`-valued `pyGet`.
-/

/-- Python-style list indexing: a nonnegative index reads from the front,
a negative index `i` reads position `len + i`, and anything out of range
is `none` (Python raises `IndexError`). -/
def pyGet (l : List ℚ) (i : ℤ) : Option ℚ :=
  if 0 ≤ i then l.get? i.toNat
  else if -(l.length : ℤ) ≤ i then l.get? (l.length - (-i).toNat)
  else none

/-- Embeds `BasicStorage.add`: `SortedList.add` keeps the list sorted, so it
is ordered insertion. -/
def BasicStorage.add (l : List ℚ) (val : ℚ) : List ℚ :=
  List.orderedInsert (fun a b => a ≤ b) val l

/-- State of `OnlineMeanAccumulator`: `sum`, `prev_sum`, `total`. -/
structure OnlineMeanAccumulator where
  sum : ℚ
  prev_sum : ℚ
  total : ℕ
deriving DecidableEq

def OnlineMeanAccumulator.init : OnlineMeanAccumulator := ⟨0, 0, 0⟩

def OnlineMeanAccumulator.accumulate (s : OnlineMeanAccumulator) (val : ℚ) :
    OnlineMeanAccumulator :=
  ⟨s.sum + val, s.sum, s.total + 1⟩

def OnlineMeanAccumulator.get_current (s : OnlineMeanAccumulator) : ℚ :=
  s.sum / ((max 1 s.total : ℕ) : ℚ)

/-- Python computes `max(1, total - 1)` over ℤ, where `total - 1 = -1` at
`total = 0`; ℕ truncation gives `max 1 0 = 1`, the same value for every
`total`. -/
def OnlineMeanAccumulator.get_previous (s : OnlineMeanAccumulator) : ℚ :=
  s.prev_sum / ((max 1 (s.total - 1) : ℕ) : ℚ)

/-- State of `OnlineStddevAccumulator`: `m2n`, `prev_m2n`, `count`.  The
Python object also holds a reference to its paired mean accumulator; the
embedding passes that collaborator's state explicitly to `accumulate`. -/
structure OnlineStddevAccumulator where
  m2n : ℚ
  prev_m2n : ℚ
  count : ℕ
deriving DecidableEq

def OnlineStddevAccumulator.init : OnlineStddevAccumulator := ⟨0, 0, 0⟩

def OnlineStddevAccumulator.accumulate (s : OnlineStddevAccumulator)
    (meanAcc : OnlineMeanAccumulator) (val : ℚ) : OnlineStddevAccumulator :=
  ⟨s.m2n + (val - meanAcc.get_previous) * (val - meanAcc.get_current),
    s.m2n, s.count + 1⟩

/-- The radicand of `OnlineStddevAccumulator.get_current`, which returns
`math.sqrt(self.m2n / max(1, self.count))`; theorems apply `Real.sqrt` to
this exact rational value. -/
def OnlineStddevAccumulator.get_current_sq (s : OnlineStddevAccumulator) : ℚ :=
  s.m2n / ((max 1 s.count : ℕ) : ℚ)

/-- State of `MedianAccumulator`: its `BasicStorage` (a sorted list) and
`prev`. -/
structure MedianAccumulator where
  storage : List ℚ
  prev : ℚ
deriving DecidableEq

def MedianAccumulator.init : MedianAccumulator := ⟨[], 0⟩

/-- Embeds `MedianAccumulator.get_current`: `index = len // 2`; even length reads
`storage[index]` and `storage[index - 1]`, odd length reads `storage[index]`.
There is no emptiness guard in the source, so on empty storage the lookup is
out of range (`none`). -/
def MedianAccumulator.get_current (s : MedianAccumulator) : Option ℚ :=
  let index : ℤ := ((s.storage.length / 2 : ℕ) : ℤ)
  if s.storage.length % 2 = 0 then do
    let a ← pyGet s.storage index
    let b ← pyGet s.storage (index - 1)
    pure ((a + b) / 2)
  else
    pyGet s.storage index

def MedianAccumulator.accumulate (s : MedianAccumulator) (val : ℚ) :
    MedianAccumulator :=
  let prev := if 0 < s.storage.length then (s.get_current).getD s.prev else s.prev
  ⟨BasicStorage.add s.storage val, prev⟩

/-- State of `FaultyMedianAccumulator`: `prev`, `median` (the pivot),
`windowSize`, and the two sorted side buffers. -/
structure FaultyMedianAccumulator where
  prev : ℚ
  median : ℚ
  windowSize : ℕ
  windowLeft : List ℚ
  windowRight : List ℚ
deriving DecidableEq

/-- Fresh `FaultyMedianAccumulator`; the Python constructor defaults
`windowSize` to 1000. -/
def FaultyMedianAccumulator.init (windowSize : ℕ) : FaultyMedianAccumulator :=
  ⟨0, 0, windowSize, [], []⟩

/-- One `accumulate` step: the two-sided rotation (`pop(-1)` of the left
buffer is its last, maximal element; `pop(0)` of the right buffer is its
head), followed by the two compaction checks.  Compaction keeps ranks
`[len/2, len)` of the left buffer and ranks `[0, len/2)` of the right one. -/
def FaultyMedianAccumulator.accumulate (s : FaultyMedianAccumulator) (val : ℚ) :
    FaultyMedianAccumulator :=
  let prev := s.median
  let step :=
    if val ≤ s.median then
      let wl := BasicStorage.add s.windowLeft val
      let wr := BasicStorage.add s.windowRight s.median
      (((wl.getLast?).getD 0, wl.dropLast), wr)
    else
      let wr := BasicStorage.add s.windowRight val
      let wl := BasicStorage.add s.windowLeft s.median
      (((wr.head?).getD 0, wl), wr.tail)
  let median := step.1.1
  let wLeft := step.1.2
  let wRight := step.2
  let windowLeft :=
    if s.windowSize < wLeft.length then wLeft.drop (wLeft.length / 2) else wLeft
  let windowRight :=
    if s.windowSize < wRight.length then wRight.take (wRight.length / 2) else wRight
  ⟨prev, median, s.windowSize, windowLeft, windowRight⟩

def FaultyMedianAccumulator.get_current (s : FaultyMedianAccumulator) : ℚ :=
  s.median

def FaultyMedianAccumulator.get_previous (s : FaultyMedianAccumulator) : ℚ :=
  s.prev

/-- The `Estimator` holds one mean, one stddev and one median accumulator;
the median accumulator's type is a parameter since either strategy can be
plugged in. -/
structure Estimator' (M : Type) where
  meanAcc : OnlineMeanAccumulator
  stddevAcc : OnlineStddevAccumulator
  medianAcc : M

/-- Embeds `Estimator.accumulate`: mean first, then stddev (reading the mean state
that has already seen `val`), then the median accumulator's own accumulate
`mAcc`. -/
def Estimator'.accumulate {M : Type} (mAcc : M → ℚ → M) (e : Estimator' M)
    (val : ℚ) : Estimator' M :=
  let meanAcc := e.meanAcc.accumulate val
  let stddevAcc := e.stddevAcc.accumulate meanAcc val
  let medianAcc := mAcc e.medianAcc val
  ⟨meanAcc, stddevAcc, medianAcc⟩

def Estimator'.get_mean {M : Type} (e : Estimator' M) : ℚ :=
  e.meanAcc.get_current

/-- Radicand of `Estimator.get_stddev` (which returns the stddev
accumulator's `get_current`, a square root). -/
def Estimator'.get_stddev_sq {M : Type} (e : Estimator' M) : ℚ :=
  e.stddevAcc.get_current_sq

def Estimator'.get_median {M A : Type} (getc : M → A) (e : Estimator' M) : A :=
  getc e.medianAcc

/-- Driver loop: feed a whole input sequence to an estimator built from
fresh accumulators. -/
def Estimator'.run {M : Type} (mAcc : M → ℚ → M) (m0 : M) (xs : List ℚ) :
    Estimator' M :=
  xs.foldl (Estimator'.accumulate mAcc)
    ⟨OnlineMeanAccumulator.init, OnlineStddevAccumulator.init, m0⟩

/-- Standalone paired run of mean and stddev accumulators, mean first on
each observation (the documented calling contract). -/
def meanStddevStep (p : OnlineMeanAccumulator × OnlineStddevAccumulator)
    (val : ℚ) : OnlineMeanAccumulator × OnlineStddevAccumulator :=
  let m := p.1.accumulate val
  (m, p.2.accumulate m val)

def meanStddevRun (xs : List ℚ) :
    OnlineMeanAccumulator × OnlineStddevAccumulator :=
  xs.foldl meanStddevStep (OnlineMeanAccumulator.init, OnlineStddevAccumulator.init)

/-- Standalone run of the exact median accumulator. -/
def medianRun (xs : List ℚ) : MedianAccumulator :=
  xs.foldl MedianAccumulator.accumulate MedianAccumulator.init

/-- Standalone run of the windowed median accumulator. -/
def faultyRun (windowSize : ℕ) (xs : List ℚ) : FaultyMedianAccumulator :=
  xs.foldl FaultyMedianAccumulator.accumulate (FaultyMedianAccumulator.init windowSize)

/-- The driver's strategy table maps the name read from stdin to an
accumulator; it is a `defaultdict` whose only explicit key is `"faulty"`. -/
inductive MedianStrategy : Type
  | exactMedian : MedianStrategy
  | faultyMedian : MedianStrategy
deriving DecidableEq

/-- Embeds the `medianAccMap` lookup, a `defaultdict` of exact accumulators
whose single explicit entry at key "faulty" is a `FaultyMedianAccumulator`,
so every key other than "faulty" yields the default exact accumulator. -/
def medianAccMap (option : String) : MedianStrategy :=
  if option = "faulty" then MedianStrategy.faultyMedian else MedianStrategy.exactMedian

/-- Reference median, following the spec's words: sort the whole sequence;
middle element when the length is odd, average of the two middle elements
when even. -/
def specMedian (xs : List ℚ) : ℚ :=
  let s := List.insertionSort (fun a b => a ≤ b) xs
  if xs.length % 2 = 1 then s.getD (xs.length / 2) 0
  else (s.getD (xs.length / 2) 0 + s.getD (xs.length / 2 - 1) 0) / 2

/-- Reference population variance, following the spec's words:
`(1/n) * sum of (x_i - mean_n)^2`. -/
def popVarSpec (xs : List ℚ) : ℚ :=
  (1 / (xs.length : ℚ)) *
    ((xs.map (fun x => (x - xs.sum / (xs.length : ℚ)) ^ 2)).sum)

def sumSq (xs : List ℚ) : ℚ := (xs.map (fun x => x ^ 2)).sum

/-- Minimum of the observations so far (0 for the empty prefix, unused). -/
def listMin : List ℚ → ℚ
  | [] => 0
  | x :: xs => xs.foldl min x

/-- Maximum of the observations so far (0 for the empty prefix, unused). -/
def listMax : List ℚ → ℚ
  | [] => 0
  | x :: xs => xs.foldl max x

/-- The strictly increasing input sequence 1, 2, ..., 100. -/
def c6Seq : List ℚ := (List.range 100).map (fun k => ((k + 1 : ℕ) : ℚ))

/-- After each of the 100 steps, the windowed accumulator's value lies
within the minimum/maximum range of the observations so far. -/
def c6InRange : Bool :=
  (List.range 100).all (fun k =>
    decide (listMin (c6Seq.take (k + 1)) ≤ (faultyRun 2 (c6Seq.take (k + 1))).median ∧
      (faultyRun 2 (c6Seq.take (k + 1))).median ≤ listMax (c6Seq.take (k + 1))))

/-! ## Helper lemmas -/

lemma pyGet_coe (l : List ℚ) (k : ℕ) : pyGet l ((k : ℕ) : ℤ) = l.get? k := by
  simp [pyGet]

/-- The storage component of a run of the exact median accumulator is the
fold of ordered insertions. -/
lemma foldl_accumulate_storage (xs : List ℚ) (s : MedianAccumulator) :
    (xs.foldl MedianAccumulator.accumulate s).storage =
      xs.foldl BasicStorage.add s.storage := by
  induction xs generalizing s with
  | nil => rfl
  | cons x xs ih => simpa using ih (s.accumulate x)

/-- Folding ordered insertions over any sorted start keeps the list sorted
and permutes the inputs in front of it. -/
lemma foldl_add_sorted_perm (xs : List ℚ) : ∀ l : List ℚ,
    l.Sorted (fun a b => a ≤ b) →
    (xs.foldl BasicStorage.add l).Sorted (fun a b => a ≤ b) ∧
      List.Perm (xs.foldl BasicStorage.add l) (xs ++ l) := by
  induction xs with
  | nil => intro l hl; exact ⟨hl, List.Perm.refl l⟩
  | cons x xs ih =>
    intro l hl
    have h1 : (BasicStorage.add l x).Sorted (fun a b => a ≤ b) :=
      List.Sorted.orderedInsert x l hl
    obtain ⟨hs, hp⟩ := ih (BasicStorage.add l x) h1
    refine ⟨hs, ?_⟩
    have h2 : List.Perm (BasicStorage.add l x) (x :: l) :=
      List.perm_orderedInsert _ x l
    have h3 : List.Perm (xs ++ BasicStorage.add l x) (xs ++ (x :: l)) :=
      List.Perm.append_left xs h2
    have h4 : List.Perm (xs ++ (x :: l)) (x :: (xs ++ l)) := List.perm_middle
    exact hp.trans (h3.trans h4)

/-- The accumulated storage is exactly the insertion sort of the inputs. -/
lemma storage_insertionSort (xs : List ℚ) :
    xs.foldl BasicStorage.add [] = List.insertionSort (fun a b => a ≤ b) xs := by
  obtain ⟨hs, hp⟩ := foldl_add_sorted_perm xs [] (by simp)
  refine List.eq_of_perm_of_sorted ?_ hs (List.sorted_insertionSort _ xs)
  have hx : List.Perm (xs.foldl BasicStorage.add []) xs := by simpa using hp
  exact hx.trans (List.perm_insertionSort _ xs).symm

/-- On a non-empty storage, `get_current` is the source's middle formula. -/
lemma get_current_of_ne_nil (s : MedianAccumulator) (h : s.storage ≠ []) :
    MedianAccumulator.get_current s =
      some (if s.storage.length % 2 = 1 then s.storage.getD (s.storage.length / 2) 0
        else (s.storage.getD (s.storage.length / 2) 0 +
          s.storage.getD (s.storage.length / 2 - 1) 0) / 2) := by
  have hlen : 0 < s.storage.length := List.length_pos.mpr h
  simp only [MedianAccumulator.get_current]
  by_cases hpar : s.storage.length % 2 = 0
  · have h2 : 2 ≤ s.storage.length := by omega
    have hi : s.storage.length / 2 < s.storage.length := by omega
    have hi1 : s.storage.length / 2 - 1 < s.storage.length := by omega
    have e1 : pyGet s.storage ((s.storage.length / 2 : ℕ) : ℤ) =
        s.storage.get? (s.storage.length / 2) := pyGet_coe _ _
    have e2 : pyGet s.storage (((s.storage.length / 2 : ℕ) : ℤ) - 1) =
        s.storage.get? (s.storage.length / 2 - 1) := by
      have hc : ((s.storage.length / 2 : ℕ) : ℤ) - 1 =
          ((s.storage.length / 2 - 1 : ℕ) : ℤ) := by omega
      rw [hc, pyGet_coe]
    obtain ⟨a, ha⟩ : ∃ a, s.storage.get? (s.storage.length / 2) = some a :=
      ⟨_, List.get?_eq_get hi⟩
    obtain ⟨b, hb⟩ : ∃ b, s.storage.get? (s.storage.length / 2 - 1) = some b :=
      ⟨_, List.get?_eq_get hi1⟩
    have ga : s.storage.getD (s.storage.length / 2) 0 = a := by
      rw [List.getD_eq_getD_get?, ha]; rfl
    have gb : s.storage.getD (s.storage.length / 2 - 1) 0 = b := by
      rw [List.getD_eq_getD_get?, hb]; rfl
    have hne : ¬ s.storage.length % 2 = 1 := by omega
    simp only [hpar, e1, e2, ha, hb, ga, gb, hne, if_false]
    simp
  · have hodd : s.storage.length % 2 = 1 := by omega
    obtain ⟨a, ha⟩ : ∃ a, s.storage.get? (s.storage.length / 2) = some a :=
      ⟨_, List.get?_eq_get (by omega)⟩
    have ga : s.storage.getD (s.storage.length / 2) 0 = a := by
      rw [List.getD_eq_getD_get?, ha]; rfl
    simp only [hpar, pyGet_coe, ha, ga, hodd, if_true, if_false]
    simp

lemma sumSq_snoc (xs : List ℚ) (x : ℚ) : sumSq (xs ++ [x]) = sumSq xs + x ^ 2 := by
  simp [sumSq]

lemma meanStddevRun_snoc (xs : List ℚ) (x : ℚ) :
    meanStddevRun (xs ++ [x]) = meanStddevStep (meanStddevRun xs) x := by
  simp [meanStddevRun, List.foldl_append]

/-- Closed form of the paired run: the mean state carries sum and count, and
`m2n` is the one-pass value `sum of squares - (sum)^2 / n` — the telescoped
Welford recurrence. -/
lemma meanStddevRun_spec (xs : List ℚ) :
    (meanStddevRun xs).1.sum = xs.sum ∧
      (meanStddevRun xs).1.total = xs.length ∧
      (meanStddevRun xs).2.count = xs.length ∧
      (meanStddevRun xs).2.m2n = sumSq xs - xs.sum ^ 2 / (xs.length : ℚ) := by
  induction xs using List.reverseRecOn with
  | nil =>
    simp [meanStddevRun, OnlineMeanAccumulator.init,
      OnlineStddevAccumulator.init, sumSq]
  | append_singleton xs x ih =>
    obtain ⟨hsum, htot, hcnt, hm2⟩ := ih
    rw [meanStddevRun_snoc]
    simp only [meanStddevStep, OnlineMeanAccumulator.accumulate,
      OnlineStddevAccumulator.accumulate, OnlineMeanAccumulator.get_previous,
      OnlineMeanAccumulator.get_current, hsum, htot, hcnt, hm2,
      List.sum_append, List.length_append, List.sum_cons, List.sum_nil,
      List.length_cons, List.length_nil, sumSq_snoc, Nat.add_sub_cancel]
    refine ⟨by ring, by trivial, by trivial, ?_⟩
    rcases Nat.eq_zero_or_pos xs.length with hn | hn
    · have hxs : xs = [] := List.length_eq_zero.mp hn
      subst hxs
      simp [sumSq]
    · have h1 : max 1 xs.length = xs.length := Nat.max_eq_right hn
      have h2 : max 1 (xs.length + 1) = xs.length + 1 :=
        Nat.max_eq_right (by omega)
      rw [h1, h2]
      have hne : (xs.length : ℚ) ≠ 0 := Nat.cast_ne_zero.mpr (by omega)
      have hne1 : ((xs.length + 1 : ℕ) : ℚ) ≠ 0 := Nat.cast_ne_zero.mpr (by omega)
      push_cast at hne1 ⊢
      field_simp
      ring

/-- Expansion of the centered sum of squares. -/
lemma sum_sub_sq (xs : List ℚ) (c : ℚ) :
    (xs.map (fun x => (x - c) ^ 2)).sum =
      sumSq xs - 2 * c * xs.sum + (xs.length : ℚ) * c ^ 2 := by
  induction xs with
  | nil => simp [sumSq]
  | cons y ys ih =>
    simp only [List.map_cons, List.sum_cons, ih, sumSq, List.length_cons]
    push_cast
    ring

/-- The one-pass radicand equals the spec's two-pass population variance. -/
lemma get_current_sq_eq_popVar (xs : List ℚ) (h : 1 ≤ xs.length) :
    (meanStddevRun xs).2.get_current_sq = popVarSpec xs := by
  obtain ⟨-, -, hcnt, hm2⟩ := meanStddevRun_spec xs
  have hne : (xs.length : ℚ) ≠ 0 := Nat.cast_ne_zero.mpr (by omega)
  rw [OnlineStddevAccumulator.get_current_sq, hcnt, hm2, popVarSpec, sum_sub_sq,
    Nat.max_eq_right h]
  field_simp
  ring

/-- The estimator run is componentwise the paired mean/stddev run together
with the independent median run, whatever the start state. -/
lemma estimatorRun_components {M : Type} (mAcc : M → ℚ → M) (xs : List ℚ)
    (e : Estimator' M) :
    xs.foldl (Estimator'.accumulate mAcc) e =
      ⟨(xs.foldl meanStddevStep (e.meanAcc, e.stddevAcc)).1,
        (xs.foldl meanStddevStep (e.meanAcc, e.stddevAcc)).2,
        xs.foldl mAcc e.medianAcc⟩ := by
  induction xs generalizing e with
  | nil => rfl
  | cons x xs ih =>
    simp only [List.foldl_cons]
    rw [ih]
    rfl

/-- One windowed accumulation preserves the side-buffer bound when the
window size is at least 1. -/
lemma accumulate_window_le (s : FaultyMedianAccumulator) (val : ℚ)
    (hw : 1 ≤ s.windowSize)
    (hl : s.windowLeft.length ≤ s.windowSize)
    (hr : s.windowRight.length ≤ s.windowSize) :
    (s.accumulate val).windowLeft.length ≤ s.windowSize ∧
      (s.accumulate val).windowRight.length ≤ s.windowSize := by
  simp only [FaultyMedianAccumulator.accumulate, BasicStorage.add]
  by_cases h : val ≤ s.median <;>
    simp only [h, if_true, if_false] <;>
    constructor <;>
    split_ifs <;>
    simp_all [List.orderedInsert_length, List.length_dropLast,
      List.length_take, List.length_drop] <;>
    omega

lemma accumulate_windowSize (s : FaultyMedianAccumulator) (val : ℚ) :
    (s.accumulate val).windowSize = s.windowSize := by
  simp only [FaultyMedianAccumulator.accumulate]

/-- The side-buffer bound is an invariant of whole runs. -/
lemma faultyRun_invariant (xs : List ℚ) : ∀ s : FaultyMedianAccumulator,
    1 ≤ s.windowSize →
    s.windowLeft.length ≤ s.windowSize →
    s.windowRight.length ≤ s.windowSize →
    (xs.foldl FaultyMedianAccumulator.accumulate s).windowSize = s.windowSize ∧
      (xs.foldl FaultyMedianAccumulator.accumulate s).windowLeft.length ≤ s.windowSize ∧
      (xs.foldl FaultyMedianAccumulator.accumulate s).windowRight.length ≤ s.windowSize := by
  induction xs with
  | nil => intro s _ hl hr; exact ⟨rfl, hl, hr⟩
  | cons x xs ih =>
    intro s hw hl hr
    obtain ⟨h1, h2⟩ := accumulate_window_le s x hw hl hr
    have hws : (s.accumulate x).windowSize = s.windowSize :=
      accumulate_windowSize s x
    simp only [List.foldl_cons]
    obtain ⟨a, b, c⟩ := ih (s.accumulate x) (by omega) (by omega) (by omega)
    exact ⟨by omega, by omega, by omega⟩

/-! ## Claims -/

/-- Claim C1, counterexample: with zero observations accumulated,
`get_current` performs an out-of-range lookup (embedded as `none`); it does
not return 0. -/
theorem C1_counterexample :
    MedianAccumulator.init.storage.length = 0 ∧
      MedianAccumulator.get_current MedianAccumulator.init = none ∧
      MedianAccumulator.get_current MedianAccumulator.init ≠ some 0 := by
  decide

/-- Claim C1, amended: for every state holding at least one observation,
`get_current` only performs in-range rank lookups and produces a value;
the `size() == 0` case, by contrast, fails rather than returning 0. -/
theorem C1_nonempty_in_range (s : MedianAccumulator) (h : s.storage ≠ []) :
    (MedianAccumulator.get_current s).isSome = true := by
  have hlen : 0 < s.storage.length := List.length_pos.mpr h
  simp only [MedianAccumulator.get_current]
  by_cases hpar : s.storage.length % 2 = 0
  · have h2 : 2 ≤ s.storage.length := by omega
    have hi : s.storage.length / 2 < s.storage.length := by omega
    have hi1 : s.storage.length / 2 - 1 < s.storage.length := by omega
    have e1 : pyGet s.storage ((s.storage.length / 2 : ℕ) : ℤ) =
        s.storage.get? (s.storage.length / 2) := pyGet_coe _ _
    have e2 : pyGet s.storage (((s.storage.length / 2 : ℕ) : ℤ) - 1) =
        s.storage.get? (s.storage.length / 2 - 1) := by
      have hc : ((s.storage.length / 2 : ℕ) : ℤ) - 1 =
          ((s.storage.length / 2 - 1 : ℕ) : ℤ) := by omega
      rw [hc, pyGet_coe]
    obtain ⟨a, ha⟩ : ∃ a, s.storage.get? (s.storage.length / 2) = some a :=
      ⟨_, List.get?_eq_get hi⟩
    obtain ⟨b, hb⟩ : ∃ b, s.storage.get? (s.storage.length / 2 - 1) = some b :=
      ⟨_, List.get?_eq_get hi1⟩
    simp only [hpar, if_true, e1, e2, ha, hb]
    simp
  · obtain ⟨a, ha⟩ : ∃ a, s.storage.get? (s.storage.length / 2) = some a :=
      ⟨_, List.get?_eq_get (by omega)⟩
    simp only [hpar, if_false, pyGet_coe, ha]
    simp

/-- Witness for C1's amended theorem at the one-observation state. -/
theorem C1_nonempty_in_range_witness :
    (([5] : List ℚ) ≠ []) ∧
      (MedianAccumulator.get_current ⟨[5], 0⟩).isSome = true :=
  ⟨by decide, C1_nonempty_in_range ⟨[5], 0⟩ (by decide)⟩

/-- Claim C2, counterexample: with `windowSize = 1000` (far larger than the
two observations, so compaction never fires: both side buffers stay at most
two long) the windowed accumulator reports 2 after the inputs 1, 2, while
the exact accumulator reports 3/2. -/
theorem C2_counterexample :
    (faultyRun 1000 [1, 2]).median = 2 ∧
      (faultyRun 1000 [1, 2]).windowLeft.length ≤ 2 ∧
      (faultyRun 1000 [1, 2]).windowRight.length ≤ 2 ∧
      (medianRun [1, 2]).get_current = some (3 / 2) ∧
      (2 : ℚ) ≠ 3 / 2 := by
  refine ⟨by decide, by decide, by decide, ?_, by norm_num⟩
  simp [medianRun, MedianAccumulator.accumulate, MedianAccumulator.init,
    MedianAccumulator.get_current, BasicStorage.add, List.orderedInsert, pyGet]
  norm_num

/-- Claim C2, amended: whatever the window size, the windowed accumulator
agrees with the exact accumulator after the first accumulation; from the
second observation on the two can already differ even though no compaction
has occurred. -/
theorem C2_first_step_agreement (windowSize : ℕ) (x : ℚ) :
    some ((faultyRun windowSize [x]).median) = (medianRun [x]).get_current := by
  have hex : (medianRun [x]).get_current = some x := by
    simp [medianRun, MedianAccumulator.accumulate, MedianAccumulator.init,
      MedianAccumulator.get_current, BasicStorage.add, List.orderedInsert, pyGet]
  rw [hex]
  by_cases h : x ≤ 0 <;>
    simp [faultyRun, FaultyMedianAccumulator.accumulate,
      FaultyMedianAccumulator.init, BasicStorage.add, List.orderedInsert, h]

/-- Claim C5, counterexample: with `windowSize = 0`, a single observation
leaves the low side buffer at length 1, above the claimed bound. -/
theorem C5_counterexample :
    ¬ ((faultyRun 0 [1]).windowLeft.length ≤ 0 ∧
        (faultyRun 0 [1]).windowRight.length ≤ 0) := by
  decide

/-- Claim C3: for every non-empty input sequence, the exact median
accumulator's `get_current` is the median of the sorted whole sequence —
the middle element at odd length, the average of the two middle elements at
even length. -/
theorem C3_exact_median (xs : List ℚ) (h : xs ≠ []) :
    (medianRun xs).get_current = some (specMedian xs) := by
  have hst : (medianRun xs).storage =
      List.insertionSort (fun a b => a ≤ b) xs := by
    rw [medianRun, foldl_accumulate_storage]
    exact storage_insertionSort xs
  have hlen : (medianRun xs).storage.length = xs.length := by
    rw [hst, List.length_insertionSort]
  have hne : (medianRun xs).storage ≠ [] := by
    intro hc
    rw [hc] at hlen
    exact h (List.length_eq_zero.mp hlen.symm)
  rw [get_current_of_ne_nil _ hne, specMedian]
  simp only [hst, hlen, List.length_insertionSort]

/-- Witness for C3 at the sequence 1, 2, 3. -/
theorem C3_exact_median_witness :
    (([1, 2, 3] : List ℚ) ≠ []) ∧
      (medianRun [1, 2, 3]).get_current = some (specMedian [1, 2, 3]) :=
  ⟨by decide, C3_exact_median [1, 2, 3] (by decide)⟩

/-- Claim C5, amended: for every `windowSize ≥ 1` (the claim fails only at
the degenerate `windowSize = 0`) and every input sequence, both side buffers
are bounded by `windowSize` after every accumulation, compaction keeping
only the half of the overflowing buffer nearest the pivot. -/
theorem C5_window_bound (windowSize : ℕ) (hw : 1 ≤ windowSize) (xs : List ℚ) :
    (faultyRun windowSize xs).windowLeft.length ≤ windowSize ∧
      (faultyRun windowSize xs).windowRight.length ≤ windowSize := by
  obtain ⟨-, h2, h3⟩ := faultyRun_invariant xs
    (FaultyMedianAccumulator.init windowSize) hw (Nat.zero_le _) (Nat.zero_le _)
  exact ⟨h2, h3⟩

/-- Witness for C5's amended theorem at window size 1 and inputs 1, 2, 3. -/
theorem C5_window_bound_witness :
    1 ≤ 1 ∧
      ((faultyRun 1 [1, 2, 3]).windowLeft.length ≤ 1 ∧
        (faultyRun 1 [1, 2, 3]).windowRight.length ≤ 1) :=
  ⟨by decide, C5_window_bound 1 (by decide) [1, 2, 3]⟩

/-- Claim C7: running the estimator is componentwise identical to the
standalone runs — the mean/stddev pair advanced with the mean first on each
observation (the contractual order, which the stddev update depends on) and
the median accumulator advanced independently — and each getter returns the
corresponding accumulator's current value. -/
theorem C7_fixed_order {M : Type} (mAcc : M → ℚ → M) (m0 : M) (xs : List ℚ) :
    (Estimator'.run mAcc m0 xs).meanAcc = (meanStddevRun xs).1 ∧
      (Estimator'.run mAcc m0 xs).stddevAcc = (meanStddevRun xs).2 ∧
      (Estimator'.run mAcc m0 xs).medianAcc = xs.foldl mAcc m0 ∧
      (Estimator'.run mAcc m0 xs).get_mean = (meanStddevRun xs).1.get_current ∧
      (Estimator'.run mAcc m0 xs).get_stddev_sq =
        (meanStddevRun xs).2.get_current_sq ∧
      ∀ (A : Type) (getc : M → A),
        (Estimator'.run mAcc m0 xs).get_median getc = getc (xs.foldl mAcc m0) := by
  have h := estimatorRun_components mAcc xs
    ⟨OnlineMeanAccumulator.init, OnlineStddevAccumulator.init, m0⟩
  refine ⟨?_, ?_, ?_, ?_, ?_, ?_⟩ <;>
    simp [Estimator'.run, meanStddevRun, Estimator'.get_mean,
      Estimator'.get_stddev_sq, Estimator'.get_median, h]

/-- Claim C4: after any `n ≥ 2` observations fed mean-first to the paired
accumulators, the stddev accumulator's current value — the square root of
its radicand `m2n / max(1, count)` — equals the two-pass population
standard deviation `sqrt((1/n) * sum of (x_i - mean_n)^2)`, under exact
arithmetic. -/
theorem C4_stddev_two_pass (xs : List ℚ) (h : 2 ≤ xs.length) :
    Real.sqrt (((meanStddevRun xs).2.get_current_sq : ℚ) : ℝ) =
      Real.sqrt ((popVarSpec xs : ℚ) : ℝ) := by
  rw [get_current_sq_eq_popVar xs (by omega)]

/-- Witness for C4 at the sequence 1, 2. -/
theorem C4_stddev_two_pass_witness :
    2 ≤ ([1, 2] : List ℚ).length ∧
      Real.sqrt (((meanStddevRun [1, 2]).2.get_current_sq : ℚ) : ℝ) =
        Real.sqrt ((popVarSpec [1, 2] : ℚ) : ℝ) :=
  ⟨by decide, C4_stddev_two_pass [1, 2] (by decide)⟩

/-- Claim C8: accumulating the same value `v` exactly `n ≥ 1` times, mean
before stddev at each step, leaves the mean at `v` and the stddev at 0
(square root of a zero radicand), under exact arithmetic. -/
theorem C8_constant_stream (v : ℚ) (n : ℕ) (h : 1 ≤ n) :
    (meanStddevRun (List.replicate n v)).1.get_current = v ∧
      Real.sqrt (((meanStddevRun (List.replicate n v)).2.get_current_sq : ℚ) : ℝ)
        = 0 := by
  obtain ⟨hsum, htot, hcnt, hm2⟩ := meanStddevRun_spec (List.replicate n v)
  have hlen : (List.replicate n v).length = n := List.length_replicate n v
  have hs : (List.replicate n v).sum = (n : ℚ) * v := by
    simp [List.sum_replicate, nsmul_eq_mul]
  have hq : sumSq (List.replicate n v) = (n : ℚ) * v ^ 2 := by
    simp [sumSq, List.map_replicate, List.sum_replicate, nsmul_eq_mul]
  have hne : (n : ℚ) ≠ 0 := Nat.cast_ne_zero.mpr (by omega)
  constructor
  · rw [OnlineMeanAccumulator.get_current, hsum, htot, hlen, hs,
      Nat.max_eq_right h]
    field_simp
  · have hm : (meanStddevRun (List.replicate n v)).2.m2n = 0 := by
      rw [hm2, hlen, hs, hq]
      field_simp
      ring
    rw [OnlineStddevAccumulator.get_current_sq, hm]
    simp

/-- Witness for C8 at `v = 3` accumulated twice. -/
theorem C8_constant_stream_witness :
    1 ≤ 2 ∧
      ((meanStddevRun (List.replicate 2 (3 : ℚ))).1.get_current = 3 ∧
        Real.sqrt (((meanStddevRun (List.replicate 2 (3 : ℚ))).2.get_current_sq :
          ℚ) : ℝ) = 0) :=
  ⟨by decide, C8_constant_stream 3 2 (by decide)⟩

/-- Claim C6: with `windowSize = 2` on the inputs 1, 2, ..., 100, the
windowed value differs from the true running median at some step (already
at the second), yet at every one of the 100 steps it stays within the
minimum/maximum range of the observations so far. -/
theorem C6_drift_within_range :
    (∃ k, k < 100 ∧
      (faultyRun 2 (c6Seq.take (k + 1))).median ≠ specMedian (c6Seq.take (k + 1))) ∧
      c6InRange = true := by
  constructor
  · refine ⟨1, by decide, ?_⟩
    have hpiv : (faultyRun 2 (c6Seq.take 2)).median = ((2 : ℕ) : ℚ) := by decide
    have htake : c6Seq.take 2 = [(1 : ℚ), 2] := by decide
    rw [hpiv, htake]
    simp only [specMedian, List.insertionSort, List.orderedInsert]
    norm_num
  · decide

/-- Claim C9: a single accumulation into a fresh windowed accumulator (the
Python constructor default `windowSize = 1000`) yields `get_current() = x`
in both branches of the rotation, while the phantom initial pivot 0 is left
behind in exactly one side buffer. -/
theorem C9_single_accumulate (x : ℚ) :
    ((FaultyMedianAccumulator.init 1000).accumulate x).get_current = x ∧
      ((FaultyMedianAccumulator.init 1000).accumulate x).windowLeft ++
        ((FaultyMedianAccumulator.init 1000).accumulate x).windowRight = [0] := by
  by_cases h : x ≤ 0 <;>
    simp [FaultyMedianAccumulator.accumulate, FaultyMedianAccumulator.init,
      FaultyMedianAccumulator.get_current, BasicStorage.add,
      List.orderedInsert, h]

/-- Claim C10: every strategy string other than `"faulty"`, the empty and
unrecognized names included, silently selects the default exact median
accumulator; no lookup fails. -/
theorem C10_default_strategy (option : String) (h : option ≠ "faulty") :
    medianAccMap option = MedianStrategy.exactMedian := by
  simp [medianAccMap, h]

/-- Witness for C10 at the empty string. -/
theorem C10_default_strategy_witness :
    ("" ≠ "faulty") ∧ medianAccMap "" = MedianStrategy.exactMedian :=
  ⟨by decide, C10_default_strategy "" (by decide)⟩
